import Mathlib

/-!
Verification of the notification-dispatch repository (backend services).

Shallow embedding of:
  * `RedisRateLimiter.isAllowed` (src/backend/src/middleware/rateLimiter.ts, lines 21-47)
    together with `CacheService.increment` (src/backend/src/utils/redis.ts, lines 126-137);
  * the `InAppService` mailbox/delivery operations (src/unnamed/part_001, lines 363-745);
  * the request validators (src/backend/src/middleware/validation.ts);
  * the `\x7b\x7bvar\x7d\x7d` template substitution of the SMS, email and in-app channels
    (src/backend/src/services/smsService.ts).

Conventions of the embedding:
  * JavaScript numbers that the code only ever uses as non-negative integers
    (timestamps, window lengths, counters, TTLs) are modelled as `Nat`.
  * The Redis counter store is a total function from keys to counter values,
    a missing key reading as `0` (Redis INCR semantics on a missing key).
  * Fallible I/O is modelled by an explicit `reachable : Bool` flag on the
    counter store; the in-app cache operations are modelled error-free, i.e. on
    the path where the backing store is reachable.
  * Redis string keys `rate_limit:<id>:<windowStart>` are modelled as pairs
    `(identifier, windowStart)`: the decimal digits of `windowStart` contain no
    colon, so distinct pairs always yield distinct key strings.
-/

/-! ## Rate limiter (rateLimiter.ts / redis.ts) -/

/-- Result record of `RedisRateLimiter.isAllowed`:
`{ allowed: boolean; remaining: number; resetTime: number }`. -/
structure RLResult where
  allowed : Bool
  remaining : Nat
  resetTime : Nat
  deriving DecidableEq

/-- `windowStart = Math.floor(now / windowMs) * windowMs` (rateLimiter.ts line 24). -/
def windowStart (windowMs now : Nat) : Nat :=
  now / windowMs * windowMs

/-- `CacheService.increment(key, ttlSeconds)` (redis.ts lines 126-137):
`INCR key` and, on the first increment of the key, `EXPIRE key ttlSeconds`.
On a Redis error it logs `Cache increment error ...` and returns `0`.
Components of the result: the counter value returned, the updated store, and
whether the degraded-mode error was logged.  The expiry bookkeeping is not
modelled: counter keys embed the window start, so a key is never read again
after its window has passed and the expiry cannot influence any returned count. -/
def cacheIncrement (reachable : Bool) (store : String × Nat → Nat)
    (key : String × Nat) : Nat × (String × Nat → Nat) × Bool :=
  if reachable then
    let result := store key + 1
    (result, fun k => if k = key then result else store k, false)
  else
    (0, store, true)

/-- `RedisRateLimiter.isAllowed(identifier)` (rateLimiter.ts lines 21-47):
computes the aligned window start, atomically increments the per-window
counter and compares it with `maxRequests`; `remaining` is
`Math.max(0, maxRequests - current)` (truncated subtraction on `Nat`) and
`resetTime` is `windowStart + windowMs`.  The `catch` branch of the source is
unreachable in this model because `cacheIncrement` already absorbs store
failures by returning `0` (fail open). -/
def isAllowedRL (windowMs maxRequests : Nat) (reachable : Bool)
    (store : String × Nat → Nat) (identifier : String) (now : Nat) :
    RLResult × (String × Nat → Nat) × Bool :=
  let ws := windowStart windowMs now
  let r := cacheIncrement reachable store (identifier, ws)
  let current := r.1
  ({ allowed := decide (current ≤ maxRequests),
     remaining := maxRequests - current,
     resetTime := ws + windowMs }, r.2.1, r.2.2)

/-- A trace of `isAllowed` calls with a reachable store: each element of
`calls` is an `(identifier, timestamp)` pair, processed in order starting from
`store`; the result pairs each call with the `RLResult` it received. -/
def rlTrace (windowMs maxRequests : Nat) (store : String × Nat → Nat) :
    List (String × Nat) → List ((String × Nat) × RLResult)
  | [] => []
  | c :: cs =>
    let r := isAllowedRL windowMs maxRequests true store c.1 c.2
    (c, r.1) :: rlTrace windowMs maxRequests r.2.1 cs

/-- Number of calls in `calls` made by `identifier` whose timestamp falls in
the aligned window starting at `ws`. -/
def countIdWindow (windowMs : Nat) (identifier : String) (ws : Nat)
    (calls : List (String × Nat)) : Nat :=
  (calls.filter (fun c => decide (c.1 = identifier) && decide (windowStart windowMs c.2 = ws))).length

/-- Number of trace entries of `identifier` inside the aligned window starting
at `ws` that were allowed. -/
def allowedInWindow (windowMs : Nat) (identifier : String) (ws : Nat)
    (tr : List ((String × Nat) × RLResult)) : Nat :=
  (tr.filter (fun p => decide (p.1.1 = identifier) &&
    decide (windowStart windowMs p.1.2 = ws) && p.2.allowed)).length

/-- Number of trace entries of `identifier` with timestamp in the half-open
span `[t0, t0 + 2*windowMs)` that were allowed. -/
def allowedInSpan (windowMs : Nat) (identifier : String) (t0 : Nat)
    (tr : List ((String × Nat) × RLResult)) : Nat :=
  (tr.filter (fun p => decide (p.1.1 = identifier) && decide (t0 ≤ p.1.2) &&
    decide (p.1.2 < t0 + 2 * windowMs) && p.2.allowed)).length

/-! ## In-app store (InAppService, src/unnamed/part_001) -/

/-- The `InAppNotification` interface (part_001 lines 368-377).  `data` is a
string-to-string record: its entries are never inspected by the service. -/
structure InAppNotification where
  id : String
  «to» : String
  title : Option String
  message : String
  ntype : String
  data : Option (List (String × String))
  timestamp : String
  read : Bool
  deriving DecidableEq

/-- The `NotificationOptions` interface (part_001 lines 379-387). -/
structure NotificationOptions where
  «to» : String
  title : Option String
  message : String
  ntype : Option String
  data : Option (List (String × String))
  persistent : Option Bool
  ttl : Option Nat
  deriving DecidableEq

/-- Association-list lookup, modelling `cache.get(key)` on the in-app cache. -/
def getA {α : Type} : List (String × α) → String → Option α
  | [], _ => none
  | p :: rest, k => if p.1 = k then some p.2 else getA rest k

/-- Association-list update, modelling `cache.set(key, value)`. -/
def setA {α : Type} : List (String × α) → String → α → List (String × α)
  | [], k, v => [(k, v)]
  | p :: rest, k, v => if p.1 = k then (k, v) :: rest else p :: setA rest k v

/-- Association-list removal, modelling `cache.del(key)`. -/
def delA {α : Type} (l : List (String × α)) (k : String) : List (String × α) :=
  l.filter (fun p => decide (p.1 ≠ k))

/-- The slice of the shared cache owned by `InAppService`: notification bodies
under keys `notification:<id>` and per-recipient mailbox id lists under keys
`notifications:<userId>`.  Each entry carries the TTL (in seconds) it was
stored with, `none` when `cache.set` was called without a TTL.  The two key
prefixes never produce the same key string, so the two maps are disjoint. -/
structure InAppStore where
  bodies : List (String × (InAppNotification × Option Nat))
  boxes : List (String × (List String × Option Nat))
  deriving DecidableEq

/-- Key `notification:<id>` of a stored body. -/
def notifKey (id : String) : String := "notification:" ++ id

/-- Key `notifications:<userId>` of a recipient's mailbox list. -/
def boxKey (userId : String) : String := "notifications:" ++ userId

/-- `cache.get<string[]>(key) || []`: the recipient's mailbox id list,
empty when absent. -/
def mailboxIds (s : InAppStore) (userId : String) : List String :=
  ((getA s.boxes (boxKey userId)).map Prod.fst).getD []

/-- `cache.get<InAppNotification>('notification:' + id)`. -/
def bodyEntry (s : InAppStore) (id : String) : Option (InAppNotification × Option Nat) :=
  getA s.bodies (notifKey id)

/-- JavaScript `ttl || d`: `0` and `undefined` are falsy, so both fall back to
the default. -/
def jsOrDefault (ttl : Option Nat) (d : Nat) : Nat :=
  match ttl with
  | some t => if t = 0 then d else t
  | none => d

/-- Events emitted over socket.io, each to the room `user:<userId>`. -/
inductive IAEvent where
  /-- `io.to(room).emit('notification', notification)` -/
  | notif (room : String) (n : InAppNotification)
  /-- `io.to(room).emit('pending_notifications', notifications)` -/
  | pending (room : String) (ns : List InAppNotification)
  /-- `io.to(room).emit('notification_read', {notificationId})` -/
  | readAck (room : String) (notificationId : String)
  /-- `io.to(room).emit('all_notifications_read')` -/
  | allRead (room : String)
  /-- `io.to(room).emit('notification_deleted', {notificationId})` -/
  | deleted (room : String) (notificationId : String)
  deriving DecidableEq

/-- Room an event is emitted to. -/
def roomOf : IAEvent → String
  | .notif r _ => r
  | .pending r _ => r
  | .readAck r _ => r
  | .allRead r => r
  | .deleted r _ => r

/-- A room emission reaches a socket exactly when the socket is in that room;
`reg` is the socket.io session registry mapping a room name to the ids of the
sockets currently joined to it. -/
def targetsSocket (reg : String → List String) (e : IAEvent) (sid : String) : Prop :=
  sid ∈ reg (roomOf e)

/-- `InAppService.deliverNotification` (part_001 lines 548-568): fetch the
sockets of the room `user:<to>`; if there are none return `false`, otherwise
emit the notification to the room and return `true`.  The service is assumed
configured (`io` non-null), as guaranteed by the guard at the top of
`sendNotification`. -/
def deliverNotification (reg : String → List String) (notification : InAppNotification) :
    Bool × List IAEvent :=
  let userRoom := "user:" ++ notification.to
  let sockets := reg userRoom
  if sockets.length = 0 then (false, [])
  else (true, [IAEvent.notif userRoom notification])

/-- `InAppService.storeNotification` (part_001 lines 570-598): store the body
under `notification:<id>` with TTL `ttl || 86400`, unshift the id onto the
recipient's mailbox list, trim the list to 100 entries deleting the bodies of
the evicted ids, and store the trimmed list. -/
def storeNotification (s : InAppStore) (notification : InAppNotification)
    (ttl : Option Nat) : InAppStore × Bool :=
  let bodies1 := setA s.bodies (notifKey notification.id)
    (notification, some (jsOrDefault ttl 86400))
  let userNotifications := notification.id :: mailboxIds s notification.to
  let kept := if userNotifications.length > 100 then userNotifications.take 100
    else userNotifications
  let removed := if userNotifications.length > 100 then userNotifications.drop 100
    else []
  let bodies2 := removed.foldl (fun bs id => delA bs (notifKey id)) bodies1
  ({ bodies := bodies2,
     boxes := setA s.boxes (boxKey notification.to) (kept, some (jsOrDefault ttl 86400)) },
   true)

/-- Result record of `InAppService.sendNotification` together with the store
and the emitted events. -/
structure SendResult where
  delivered : Bool
  stored : Bool
  store : InAppStore
  events : List IAEvent
  deriving DecidableEq

/-- `InAppService.sendNotification(options)` (part_001 lines 441-481): build
the notification (`type: options.type || 'info'`, `read: false`), attempt live
delivery, then store it when `options.persistent || !delivered`.  The fresh id
produced by `generateNotificationId` and the ISO timestamp are passed in
explicitly. -/
def sendNotification (reg : String → List String) (s : InAppStore)
    (options : NotificationOptions) (freshId timestamp : String) : SendResult :=
  let notification : InAppNotification :=
    { id := freshId, «to» := options.to, title := options.title,
      message := options.message, ntype := options.ntype.getD "info",
      data := options.data, timestamp := timestamp, read := false }
  let d := deliverNotification reg notification
  if options.persistent.getD false || !d.1 then
    let st := storeNotification s notification options.ttl
    { delivered := d.1, stored := st.2, store := st.1, events := d.2 }
  else
    { delivered := d.1, stored := false, store := s, events := d.2 }

/-- `InAppService.getUserNotifications(userId, includeRead, limit)` (part_001
lines 615-638): resolve the first `limit` mailbox ids to bodies, keeping a
body when it exists and (`includeRead` or not yet read). -/
def getUserNotifications (s : InAppStore) (userId : String)
    (includeRead : Bool) (limit : Nat) : List InAppNotification :=
  ((mailboxIds s userId).take limit).filterMap (fun id =>
    match bodyEntry s id with
    | some p => if includeRead || !p.1.read then some p.1 else none
    | none => none)

/-- `InAppService.sendPendingNotifications(userId)` (part_001 lines 600-613):
fetch the unread notifications (`getUserNotifications(userId, false)`, whose
`limit` defaults to 50) and, when there are any, emit them to the user's room
as one `pending_notifications` event.  The handler performs only cache reads,
which the second component records by returning the store unchanged. -/
def sendPendingNotifications (s : InAppStore) (userId : String) :
    List IAEvent × InAppStore :=
  let notifications := getUserNotifications s userId false 50
  (if notifications.length > 0 then [IAEvent.pending ("user:" ++ userId) notifications]
   else [], s)

/-- The `join` handler of `setupSocketHandlers` (part_001 lines 417-423):
`socket.join('user:' + userId)` followed by `sendPendingNotifications(userId)`. -/
def handleJoin (reg : String → List String) (s : InAppStore)
    (socketId userId : String) :
    (String → List String) × (List IAEvent × InAppStore) :=
  (fun room => if room = "user:" ++ userId then socketId :: reg room else reg room,
   sendPendingNotifications s userId)

/-- `InAppService.markNotificationAsRead(notificationId, userId)` (part_001
lines 640-655): only when the body exists and belongs to `userId`, set
`read := true` (stored back without a TTL) and emit `notification_read`. -/
def markNotificationAsRead (s : InAppStore) (notificationId userId : String) :
    InAppStore × List IAEvent :=
  match bodyEntry s notificationId with
  | some p =>
    if p.1.to = userId then
      let n2 : InAppNotification := { p.1 with read := true }
      ({ s with bodies := setA s.bodies (notifKey notificationId) (n2, none) },
       [IAEvent.readAck ("user:" ++ userId) notificationId])
    else (s, [])
  | none => (s, [])

/-- `InAppService.deleteNotification(notificationId, userId)` (part_001 lines
686-707): only when the body exists and belongs to `userId`, filter the id out
of the mailbox list (stored back without a TTL), delete the body, and emit
`notification_deleted`. -/
def deleteNotification (s : InAppStore) (notificationId userId : String) :
    InAppStore × List IAEvent :=
  match bodyEntry s notificationId with
  | some p =>
    if p.1.to = userId then
      let updatedIds := (mailboxIds s userId).filter (fun id => decide (id ≠ notificationId))
      let s1 := { s with boxes := setA s.boxes (boxKey userId) (updatedIds, none) }
      let s2 := { s1 with bodies := delA s1.bodies (notifKey notificationId) }
      (s2, [IAEvent.deleted ("user:" ++ userId) notificationId])
    else (s, [])
  | none => (s, [])

/-! ## Template substitution (smsService.ts, part_001) -/

/-- `SmsService.sendTemplateSms` substitution loop (smsService.ts lines
114-121): for each `[key, value]` of `Object.entries(variables)` in insertion
order, replace every occurrence of `\x7b\x7bkey\x7d\x7d` by `String(value)`.  Variable
values are modelled already stringified; keys are taken as literal text, as
they are interpolated verbatim into the pattern. -/
def smsProcessTemplate (template : String) (vars : List (String × String)) : String :=
  vars.foldl (fun processedMessage kv =>
    processedMessage.replace ("\x7b\x7b" ++ kv.1 ++ "\x7d\x7d") kv.2) template

/-- `EmailService.sendTemplateEmail` substitution loop (lines 406-415 of the
email service): the same replacement applied to the subject and the body. -/
def emailProcessTemplate (subject template : String) (vars : List (String × String)) :
    String × String :=
  vars.foldl (fun p kv =>
    (p.1.replace ("\x7b\x7b" ++ kv.1 ++ "\x7d\x7d") kv.2,
     p.2.replace ("\x7b\x7b" ++ kv.1 ++ "\x7d\x7d") kv.2)) (subject, template)

/-- `InAppService.sendTemplateNotification` substitution loop (part_001 lines
490-498): the same replacement applied to the message and the title
(initialised to `options.title || ''`). -/
def inAppProcessTemplate (template title : String) (vars : List (String × String)) :
    String × String :=
  vars.foldl (fun p kv =>
    (p.1.replace ("\x7b\x7b" ++ kv.1 ++ "\x7d\x7d") kv.2,
     p.2.replace ("\x7b\x7b" ++ kv.1 ++ "\x7d\x7d") kv.2)) (template, title)

/-- `InAppService.sendTemplateNotification` (part_001 lines 483-510):
substitute the variables into the template and the title, then call
`sendNotification` with `title: processedTitle || options.title`. -/
def sendTemplateNotification (reg : String → List String) (s : InAppStore)
    («to» template : String) (vars : List (String × String))
    (options : NotificationOptions) (freshId timestamp : String) : SendResult :=
  let p := inAppProcessTemplate template (options.title.getD "") vars
  let options2 : NotificationOptions :=
    { options with
      «to» := «to»
      title := if p.2 = "" then options.title else some p.2
      message := p.1 }
  sendNotification reg s options2 freshId timestamp

/-! ## Request validation (validation.ts) -/

/-- The whitespace class `\s` of JavaScript regular expressions. -/
def jsWhitespace (c : Char) : Bool :=
  c = ' ' || c = Char.ofNat 9 || c = Char.ofNat 10 || c = Char.ofNat 11 ||
  c = Char.ofNat 12 || c = Char.ofNat 13 || c = Char.ofNat 160 ||
  c = Char.ofNat 0x1680 || (0x2000 ≤ c.toNat && c.toNat ≤ 0x200a) ||
  c = Char.ofNat 0x2028 || c = Char.ofNat 0x2029 || c = Char.ofNat 0x202f ||
  c = Char.ofNat 0x205f || c = Char.ofNat 0x3000 || c = Char.ofNat 0xfeff

/-- The email pattern `/^[^\s@]+@[^\s@]+\.[^\s@]+$/` (validation.ts lines 69
and 298).  A string matches exactly when it splits at a unique `@` into a
nonempty left part and a right part, both free of whitespace (freedom of `@`
is forced by the split), and the right part contains a `.` that is neither its
first nor its last character (both neighbours of that dot being nonempty runs
of allowed characters, which may themselves contain dots). -/
def emailTest (s : String) : Bool :=
  match s.toList.splitOn '@' with
  | [a, r] =>
    !a.isEmpty && a.all (fun c => !jsWhitespace c) &&
    r.all (fun c => !jsWhitespace c) && ((r.drop 1).dropLast.contains '.')
  | _ => false

/-- The phone pattern `/^\+?[1-9]\d\x7b1,14\x7d$/` applied to
`value.replace(/\s/g, '')` (validation.ts lines 73 and 300): after removing
all whitespace, an optional `+`, a leading digit `1`-`9`, then 1 to 14 further
digits. -/
def smsTest (s : String) : Bool :=
  let cleaned := s.toList.filter (fun c => !jsWhitespace c)
  let core := if cleaned.head? = some '+' then cleaned.tail else cleaned
  match core with
  | c :: rest =>
    ('1' ≤ c && c ≤ '9') && decide (1 ≤ rest.length) &&
    decide (rest.length ≤ 14) && rest.all Char.isDigit
  | [] => false

/-- `validateRecipientFormat(channel, recipient)` (validation.ts lines 295-306). -/
def validateRecipientFormat (channel recipient : String) : Bool :=
  if channel = "EMAIL" then emailTest recipient
  else if channel = "SMS" then smsTest recipient
  else if channel = "IN_APP" then decide (recipient.length > 0)
  else false

/-- A notification request body, with the fields checked by
`notificationValidation`.  `templateId`/`variables` only undergo type checks
(`isString`/`isObject`), which the typed model satisfies by construction. -/
structure NotifRequest where
  «to» : String
  channel : String
  subject : Option String
  message : String
  templateId : Option String
  sendAt : Option String
  deriving DecidableEq

/-- Errors produced by the validator chain on the `to` field (validation.ts
lines 63-78): `notEmpty`, then the custom per-channel format check. -/
def toFieldErrors (req : NotifRequest) : List String :=
  (if req.to = "" then ["Recipient is required"] else []) ++
  (if req.channel = "EMAIL" then
     (if emailTest req.to then [] else ["Invalid email format"])
   else if req.channel = "SMS" then
     (if smsTest req.to then [] else ["Invalid phone number format"])
   else [])

/-- All errors collected by `notificationValidation` (validation.ts lines
62-121).  The `sendAt` ISO8601/future check compares against the wall clock
and is abstracted by the `sendAtValid` flag (irrelevant when `sendAt` is
absent). -/
def notificationValidationErrors (req : NotifRequest) (sendAtValid : Bool) : List String :=
  toFieldErrors req ++
  (if req.channel = "EMAIL" ∨ req.channel = "SMS" ∨ req.channel = "IN_APP" then []
   else ["Channel must be EMAIL, SMS, or IN_APP"]) ++
  (match req.subject with
   | some sub => if sub.trim.length ≤ 200 then [] else ["Subject must not exceed 200 characters"]
   | none => []) ++
  (if req.message = "" then ["Message is required"] else []) ++
  (if 1 ≤ req.message.trim.length ∧ req.message.trim.length ≤ 5000 then []
   else ["Message must be between 1 and 5000 characters"]) ++
  (match req.sendAt with
   | some _ => if sendAtValid then [] else ["Send date must be in the future"]
   | none => [])

/-- An HTTP response, reduced to status and error/success code. -/
structure RouteResponse where
  status : Nat
  code : String
  deriving DecidableEq

/-- `handleValidationErrors` (validation.ts lines 6-26): when the collected
error list is nonempty respond `400` with code `VALIDATION_ERROR` and stop the
middleware chain (the continuation never runs); otherwise `next()`.  The
boolean of the continuation/result records whether a job was enqueued. -/
def handleValidationErrors (errors : List String) (next : RouteResponse × Bool) :
    RouteResponse × Bool :=
  if errors.isEmpty then next
  else ({ status := 400, code := "VALIDATION_ERROR" }, false)

/-- Modelled from the spec: the notification route itself is not under `src/`
(only the validators it mounts are).  Per the spec's control flow, the API
layer runs `notificationValidation` and, only if validation passes, the route
handler enqueues the job (modelled as a `201` response with `enqueued = true`). -/
def notificationRoute (req : NotifRequest) (sendAtValid : Bool) : RouteResponse × Bool :=
  handleValidationErrors (notificationValidationErrors req sendAtValid)
    ({ status := 201, code := "QUEUED" }, true)

/-! ## Concrete stores used by witness and counterexample theorems -/

/-- A body whose recipient is `"u"`, unread, with id `toString i`. -/
def exNotif (i : Nat) : InAppNotification :=
  { id := toString i, «to» := "u", title := none, message := "m", ntype := "info",
    data := none, timestamp := "t", read := false }

/-- A store whose mailbox for `"u"` already holds 100 ids `"0"`..`"99"`, each
with a stored body. -/
def exStore100 : InAppStore :=
  { bodies := (List.range 100).map (fun i => (notifKey (toString i), (exNotif i, some 86400))),
    boxes := [(boxKey "u", ((List.range 100).map (fun i => toString i), some 86400))] }

/-- A store whose mailbox for `"u"` holds 51 ids `"0"`..`"50"`, all of whose
bodies are present and unread. -/
def exStore51 : InAppStore :=
  { bodies := (List.range 51).map (fun i => (notifKey (toString i), (exNotif i, some 86400))),
    boxes := [(boxKey "u", ((List.range 51).map (fun i => toString i), some 86400))] }

/-- Options of a persistent notification with an explicit nonzero TTL. -/
def exOptions7 : NotificationOptions :=
  { «to» := "u", title := none, message := "m", ntype := none, data := none,
    persistent := some true, ttl := some 7 }

/-- The same options with `ttl = 0`, which JavaScript `ttl || 86400` treats as
absent. -/
def exOptions0 : NotificationOptions :=
  { «to» := "u", title := none, message := "m", ntype := none, data := none,
    persistent := some true, ttl := some 0 }

/-- The empty in-app store. -/
def emptyStore : InAppStore := { bodies := [], boxes := [] }

/-- A registry with no live session in any room. -/
def emptyReg : String → List String := fun _ => []

/-! ## Lemmas about the rate limiter -/

lemma countIdWindow_nil (windowMs : Nat) (id : String) (ws : Nat) :
    countIdWindow windowMs id ws [] = 0 := rfl

lemma countIdWindow_cons (windowMs : Nat) (id : String) (ws : Nat)
    (c : String × Nat) (l : List (String × Nat)) :
    countIdWindow windowMs id ws (c :: l) =
      (if c.1 = id ∧ windowStart windowMs c.2 = ws then 1 else 0) +
        countIdWindow windowMs id ws l := by
  simp only [countIdWindow, List.filter_cons]
  by_cases h1 : c.1 = id <;> by_cases h2 : windowStart windowMs c.2 = ws <;>
    simp [h1, h2] <;> omega

lemma countIdWindow_take_succ (windowMs : Nat) (id : String) (ws : Nat)
    (calls : List (String × Nat)) (i : Nat) (hi : i < calls.length) :
    countIdWindow windowMs id ws (calls.take (i + 1)) =
      countIdWindow windowMs id ws (calls.take i) +
        (if (calls.get ⟨i, hi⟩).1 = id ∧
            windowStart windowMs (calls.get ⟨i, hi⟩).2 = ws then 1 else 0) := by
  induction calls generalizing i with
  | nil => simp at hi
  | cons c cs ih =>
    cases i with
    | zero =>
      simp only [List.take_succ_cons, List.take_zero, List.get_cons_zero]
      rw [countIdWindow_cons]
      simp [countIdWindow_nil]
    | succ j =>
      have hj : j < cs.length := by simpa using hi
      simp only [List.take_succ_cons, List.get_cons_succ]
      rw [countIdWindow_cons, countIdWindow_cons, ih j hj]
      omega

lemma rlTrace_get?_eq (windowMs maxRequests : Nat) :
    ∀ (calls : List (String × Nat)) (store : String × Nat → Nat) (i : Nat)
      (hi : i < calls.length),
      (rlTrace windowMs maxRequests store calls).get? i =
        some (calls.get ⟨i, hi⟩,
          { allowed := decide (store ((calls.get ⟨i, hi⟩).1,
                windowStart windowMs (calls.get ⟨i, hi⟩).2) +
              countIdWindow windowMs (calls.get ⟨i, hi⟩).1
                (windowStart windowMs (calls.get ⟨i, hi⟩).2) (calls.take i) + 1 ≤ maxRequests),
            remaining := maxRequests - (store ((calls.get ⟨i, hi⟩).1,
                windowStart windowMs (calls.get ⟨i, hi⟩).2) +
              countIdWindow windowMs (calls.get ⟨i, hi⟩).1
                (windowStart windowMs (calls.get ⟨i, hi⟩).2) (calls.take i) + 1),
            resetTime := windowStart windowMs (calls.get ⟨i, hi⟩).2 + windowMs }) := by
  intro calls
  induction calls with
  | nil => intro store i hi; simp at hi
  | cons c cs ih =>
    intro store i hi
    cases i with
    | zero =>
      simp [rlTrace, isAllowedRL, cacheIncrement, countIdWindow_nil]
    | succ j =>
      have hj : j < cs.length := by simpa using hi
      have step : (rlTrace windowMs maxRequests store (c :: cs)).get? (j + 1) =
          (rlTrace windowMs maxRequests
            (fun k => if k = (c.1, windowStart windowMs c.2)
              then store (c.1, windowStart windowMs c.2) + 1 else store k) cs).get? j := by
        simp [rlTrace, isAllowedRL, cacheIncrement]
      rw [step, ih _ j hj]
      have hval : (fun k => if k = (c.1, windowStart windowMs c.2)
            then store (c.1, windowStart windowMs c.2) + 1 else store k)
            ((cs.get ⟨j, hj⟩).1, windowStart windowMs (cs.get ⟨j, hj⟩).2) =
          if ((cs.get ⟨j, hj⟩).1, windowStart windowMs (cs.get ⟨j, hj⟩).2) =
              (c.1, windowStart windowMs c.2)
            then store (c.1, windowStart windowMs c.2) + 1
            else store ((cs.get ⟨j, hj⟩).1, windowStart windowMs (cs.get ⟨j, hj⟩).2) := rfl
      have hXY : (fun k => if k = (c.1, windowStart windowMs c.2)
            then store (c.1, windowStart windowMs c.2) + 1 else store k)
            ((cs.get ⟨j, hj⟩).1, windowStart windowMs (cs.get ⟨j, hj⟩).2) +
          countIdWindow windowMs (cs.get ⟨j, hj⟩).1
            (windowStart windowMs (cs.get ⟨j, hj⟩).2) (cs.take j) =
          store ((cs.get ⟨j, hj⟩).1, windowStart windowMs (cs.get ⟨j, hj⟩).2) +
          countIdWindow windowMs (cs.get ⟨j, hj⟩).1
            (windowStart windowMs (cs.get ⟨j, hj⟩).2) ((c :: cs).take (j + 1)) := by
        rw [hval]
        rw [List.take_succ_cons, countIdWindow_cons]
        by_cases hc : ((cs.get ⟨j, hj⟩).1, windowStart windowMs (cs.get ⟨j, hj⟩).2) =
            (c.1, windowStart windowMs c.2)
        · obtain ⟨h1, h2⟩ := Prod.ext_iff.mp hc
          rw [if_pos hc, if_pos ⟨h1.symm, h2.symm⟩, hc]
          omega
        · have hcond : ¬ (c.1 = (cs.get ⟨j, hj⟩).1 ∧
              windowStart windowMs c.2 = windowStart windowMs (cs.get ⟨j, hj⟩).2) := by
            rintro ⟨hx, hy⟩
            exact hc (by rw [hx, hy])
          rw [if_neg hc, if_neg hcond]
          omega
      simp only [List.get_cons_succ]
      rw [hXY]

lemma allowedInWindow_cons (windowMs : Nat) (id : String) (ws : Nat)
    (e : (String × Nat) × RLResult) (tr : List ((String × Nat) × RLResult)) :
    allowedInWindow windowMs id ws (e :: tr) =
      (if e.1.1 = id ∧ windowStart windowMs e.1.2 = ws ∧ e.2.allowed = true
        then 1 else 0) + allowedInWindow windowMs id ws tr := by
  simp only [allowedInWindow, List.filter_cons]
  by_cases b1 : e.1.1 = id <;> by_cases b2 : windowStart windowMs e.1.2 = ws <;>
    by_cases b3 : e.2.allowed = true <;> simp [b1, b2, b3] <;> omega

lemma allowedInWindow_rlTrace (windowMs maxRequests : Nat) (id : String) (ws : Nat) :
    ∀ (calls : List (String × Nat)) (store : String × Nat → Nat),
      allowedInWindow windowMs id ws (rlTrace windowMs maxRequests store calls) =
        min maxRequests (store (id, ws) + countIdWindow windowMs id ws calls) -
          min maxRequests (store (id, ws)) := by
  intro calls
  induction calls with
  | nil => intro store; simp [allowedInWindow, rlTrace, countIdWindow_nil]
  | cons c cs ih =>
    intro store
    have hstep : rlTrace windowMs maxRequests store (c :: cs) =
        (c, { allowed := decide (store (c.1, windowStart windowMs c.2) + 1 ≤ maxRequests),
              remaining := maxRequests - (store (c.1, windowStart windowMs c.2) + 1),
              resetTime := windowStart windowMs c.2 + windowMs }) ::
          rlTrace windowMs maxRequests
            (fun k => if k = (c.1, windowStart windowMs c.2)
              then store (c.1, windowStart windowMs c.2) + 1 else store k) cs := rfl
    have ihs := ih (fun k => if k = (c.1, windowStart windowMs c.2)
      then store (c.1, windowStart windowMs c.2) + 1 else store k)
    rw [hstep, allowedInWindow_cons, countIdWindow_cons, ihs]
    by_cases hc : c.1 = id ∧ windowStart windowMs c.2 = ws
    · obtain ⟨h1, h2⟩ := hc
      have hkey : ((id, ws) : String × Nat) = (c.1, windowStart windowMs c.2) := by
        rw [h1, h2]
      have hupd : (if ((id, ws) : String × Nat) = (c.1, windowStart windowMs c.2)
          then store (c.1, windowStart windowMs c.2) + 1 else store (id, ws)) =
          store (c.1, windowStart windowMs c.2) + 1 := if_pos hkey
      have hx : store (id, ws) = store (c.1, windowStart windowMs c.2) :=
        congrArg store hkey
      rw [hupd, if_pos (show c.1 = id ∧ windowStart windowMs c.2 = ws from ⟨h1, h2⟩)]
      by_cases h3 : store (c.1, windowStart windowMs c.2) + 1 ≤ maxRequests
      · rw [if_pos ⟨h1, h2, by simp [h3]⟩]
        omega
      · rw [if_neg (fun hcontra => h3 (by simpa using hcontra.2.2))]
        omega
    · have hne : ((id, ws) : String × Nat) ≠ (c.1, windowStart windowMs c.2) := by
        intro h
        obtain ⟨e1, e2⟩ := Prod.ext_iff.mp h
        exact hc ⟨e1.symm, e2.symm⟩
      have hupd : (if ((id, ws) : String × Nat) = (c.1, windowStart windowMs c.2)
          then store (c.1, windowStart windowMs c.2) + 1 else store (id, ws)) =
          store (id, ws) := if_neg hne
      rw [hupd, if_neg hc, if_neg (fun hcontra => hc ⟨hcontra.1, hcontra.2.1⟩)]
      omega

lemma length_filter_le_three {α : Type} (l : List α) (p q1 q2 q3 : α → Bool)
    (h : ∀ a, p a = true → q1 a = true ∨ q2 a = true ∨ q3 a = true) :
    (l.filter p).length ≤
      (l.filter q1).length + (l.filter q2).length + (l.filter q3).length := by
  induction l with
  | nil => simp
  | cons a l ih =>
    have ha := h a
    simp only [List.filter_cons]
    by_cases hp : p a = true <;> by_cases h1 : q1 a = true <;>
      by_cases h2 : q2 a = true <;> by_cases h3 : q3 a = true <;>
        simp only [hp, h1, h2, h3, if_true, if_false, List.length_cons,
          Bool.false_eq_true] <;>
        first
          | omega
          | (exfalso
             rcases ha hp with h' | h' | h'
             · exact h1 h'
             · exact h2 h'
             · exact h3 h')

lemma span_window_cases (windowMs : Nat) (hW : 0 < windowMs) (t0 t : Nat)
    (h1 : t0 ≤ t) (h2 : t < t0 + 2 * windowMs) :
    windowStart windowMs t = windowStart windowMs t0 ∨
    windowStart windowMs t = windowStart windowMs t0 + windowMs ∨
    windowStart windowMs t = windowStart windowMs t0 + 2 * windowMs := by
  have hd1 : t0 / windowMs ≤ t / windowMs := Nat.div_le_div_right h1
  have hmod : t0 % windowMs < windowMs := Nat.mod_lt _ hW
  have hdm : windowMs * (t0 / windowMs) + t0 % windowMs = t0 := Nat.div_add_mod t0 windowMs
  have hexp : (t0 / windowMs + 3) * windowMs = windowMs * (t0 / windowMs) + 3 * windowMs := by
    ring
  have hlt : t < (t0 / windowMs + 3) * windowMs := by omega
  have hd2 : t / windowMs < t0 / windowMs + 3 := (Nat.div_lt_iff_lt_mul hW).mpr hlt
  have hcase : t / windowMs = t0 / windowMs ∨ t / windowMs = t0 / windowMs + 1 ∨
      t / windowMs = t0 / windowMs + 2 := by omega
  unfold windowStart
  rcases hcase with h | h | h <;> rw [h] <;> simp [Nat.add_mul] <;> omega

/-! ## Claim theorems for the rate limiter -/

/-- C1 (confirmed): for every identifier and every aligned fixed window, with
the counter store reachable, the n-th call to `RedisRateLimiter.isAllowed`
made by that identifier whose timestamp falls in that window returns
`allowed = (n ≤ maxRequests)`, `remaining = max(0, maxRequests - n)` and
`resetTime = windowStart + windowMs` (first conjunct, where
`n = countIdWindow ... (calls.take (i+1))` is the rank of call `i` in its own
window); consequently the number of allowed calls of an identifier inside any
single aligned window is exactly `min maxRequests (number of its calls in the
window)`, i.e. exactly `maxRequests` calls are allowed once at least
`maxRequests` calls fall in the window (second conjunct). -/
theorem rateLimiter_fixed_window_count (windowMs maxRequests : Nat)
    (hW : 0 < windowMs) (calls : List (String × Nat)) (i : Nat)
    (hi : i < calls.length) :
    ((rlTrace windowMs maxRequests (fun _ => 0) calls).get? i =
      some (calls.get ⟨i, hi⟩,
        { allowed := decide (countIdWindow windowMs (calls.get ⟨i, hi⟩).1
            (windowStart windowMs (calls.get ⟨i, hi⟩).2) (calls.take (i + 1)) ≤ maxRequests),
          remaining := maxRequests - countIdWindow windowMs (calls.get ⟨i, hi⟩).1
            (windowStart windowMs (calls.get ⟨i, hi⟩).2) (calls.take (i + 1)),
          resetTime := windowStart windowMs (calls.get ⟨i, hi⟩).2 + windowMs })) ∧
    ∀ id ws, allowedInWindow windowMs id ws
        (rlTrace windowMs maxRequests (fun _ => 0) calls) =
      min maxRequests (countIdWindow windowMs id ws calls) := by
  constructor
  · rw [rlTrace_get?_eq windowMs maxRequests calls (fun _ => 0) i hi]
    rw [countIdWindow_take_succ windowMs (calls.get ⟨i, hi⟩).1
      (windowStart windowMs (calls.get ⟨i, hi⟩).2) calls i hi]
    simp
  · intro id ws
    rw [allowedInWindow_rlTrace windowMs maxRequests id ws calls (fun _ => 0)]
    simp

/-- Witness for C1: with `windowMs = 10`, `maxRequests = 2` and calls by `"u"`
at times 1, 2, 3, 12, the third call is the third one of `"u"` in the window
starting at 0, so it is rejected with `remaining = 0` and `resetTime = 10`,
and that window allowed exactly 2 of its 3 calls. -/
theorem rateLimiter_fixed_window_count_inst :
    (rlTrace 10 2 (fun _ => 0) [("u", 1), ("u", 2), ("u", 3), ("u", 12)]).get? 2 =
      some (("u", 3), { allowed := false, remaining := 0, resetTime := 10 }) ∧
    allowedInWindow 10 "u" 0
      (rlTrace 10 2 (fun _ => 0) [("u", 1), ("u", 2), ("u", 3), ("u", 12)]) = 2 := by
  have h := rateLimiter_fixed_window_count 10 2 (by decide)
    [("u", 1), ("u", 2), ("u", 3), ("u", 12)] 2 (by decide)
  exact ⟨h.1.trans (by decide), (h.2 "u" 0).trans (by decide)⟩

/-- C3 (confirmed): when the counter store is unreachable, the increment
inside `CacheService.increment` fails, is logged as a cache/degraded error and
yields `0`, so `isAllowed` returns `allowed = true` (fail open) with
`remaining = maxRequests`, leaving the store untouched; the final `true`
records that the degraded condition was logged. -/
theorem rateLimiter_fail_open (windowMs maxRequests : Nat)
    (store : String × Nat → Nat) (identifier : String) (now : Nat) :
    isAllowedRL windowMs maxRequests false store identifier now =
      ({ allowed := true, remaining := maxRequests,
         resetTime := windowStart windowMs now + windowMs }, store, true) := by
  simp [isAllowedRL, cacheIncrement]

/-- Counterexample for C7 as stated: with `windowMs = 10` and
`maxRequests = 1`, the three calls by `"u"` at times 9, 10 and 20 all lie in
the sliding span `[9, 29)` of length `2 * windowMs`, each is the first call of
its aligned window so all three are allowed, and `3 > 2 * maxRequests = 2`. -/
theorem rateLimiter_span_2L_cex :
    allowedInSpan 10 "u" 9 (rlTrace 10 1 (fun _ => 0) [("u", 9), ("u", 10), ("u", 20)]) = 3 ∧
    ¬ (allowedInSpan 10 "u" 9
        (rlTrace 10 1 (fun _ => 0) [("u", 9), ("u", 10), ("u", 20)]) ≤ 2 * 1) := by
  constructor <;> decide

/-- C7 (corrected): a sliding span of length `2W` can meet three aligned
windows, so the tight boundary-burst bound over such a span is `3L`, not `2L`:
for every identifier, window length `W > 0`, limit `L` and span start `t0`,
with the counter store reachable, at most `3 * L` calls of that identifier
inside the half-open span `[t0, t0 + 2W)` return `allowed = true`. -/
theorem rateLimiter_span_3L_bound (windowMs maxRequests : Nat) (hW : 0 < windowMs)
    (id : String) (calls : List (String × Nat)) (t0 : Nat) :
    allowedInSpan windowMs id t0 (rlTrace windowMs maxRequests (fun _ => 0) calls) ≤
      3 * maxRequests := by
  have key : ∀ p : (String × Nat) × RLResult,
      (decide (p.1.1 = id) && decide (t0 ≤ p.1.2) &&
        decide (p.1.2 < t0 + 2 * windowMs) && p.2.allowed) = true →
      (decide (p.1.1 = id) &&
        decide (windowStart windowMs p.1.2 = windowStart windowMs t0) &&
          p.2.allowed) = true ∨
      (decide (p.1.1 = id) &&
        decide (windowStart windowMs p.1.2 = windowStart windowMs t0 + windowMs) &&
          p.2.allowed) = true ∨
      (decide (p.1.1 = id) &&
        decide (windowStart windowMs p.1.2 = windowStart windowMs t0 + 2 * windowMs) &&
          p.2.allowed) = true := by
    intro p hp
    simp only [Bool.and_eq_true, decide_eq_true_eq] at hp ⊢
    rcases span_window_cases windowMs hW t0 p.1.2 hp.1.1.2 hp.1.2 with h | h | h <;> tauto
  have h3 := length_filter_le_three
    (rlTrace windowMs maxRequests (fun _ => 0) calls)
    (fun p => decide (p.1.1 = id) && decide (t0 ≤ p.1.2) &&
      decide (p.1.2 < t0 + 2 * windowMs) && p.2.allowed)
    (fun p => decide (p.1.1 = id) &&
      decide (windowStart windowMs p.1.2 = windowStart windowMs t0) && p.2.allowed)
    (fun p => decide (p.1.1 = id) &&
      decide (windowStart windowMs p.1.2 = windowStart windowMs t0 + windowMs) &&
        p.2.allowed)
    (fun p => decide (p.1.1 = id) &&
      decide (windowStart windowMs p.1.2 = windowStart windowMs t0 + 2 * windowMs) &&
        p.2.allowed)
    key
  have b1 := allowedInWindow_rlTrace windowMs maxRequests id
    (windowStart windowMs t0) calls (fun _ => 0)
  have b2 := allowedInWindow_rlTrace windowMs maxRequests id
    (windowStart windowMs t0 + windowMs) calls (fun _ => 0)
  have b3 := allowedInWindow_rlTrace windowMs maxRequests id
    (windowStart windowMs t0 + 2 * windowMs) calls (fun _ => 0)
  simp only [allowedInWindow] at b1 b2 b3
  simp only [allowedInSpan]
  omega

/-- Witness for C7 (amended): the `3L` bound instantiated at `windowMs = 10`,
`maxRequests = 1`, the calls at times 9, 10, 20 and span start 9 (where the
bound is attained: all three calls are allowed). -/
theorem rateLimiter_span_3L_bound_inst :
    allowedInSpan 10 "u" 9 (rlTrace 10 1 (fun _ => 0) [("u", 9), ("u", 10), ("u", 20)]) ≤
      3 * 1 :=
  rateLimiter_span_3L_bound 10 1 (by decide) "u" [("u", 9), ("u", 10), ("u", 20)] 9

/-! ## Lemmas about the in-app association-list store -/

lemma getA_setA_self {α : Type} (l : List (String × α)) (k : String) (v : α) :
    getA (setA l k v) k = some v := by
  induction l with
  | nil => simp [setA, getA]
  | cons p rest ih =>
    by_cases h : p.1 = k <;> simp [setA, getA, h, ih]

lemma getA_delA {α : Type} (l : List (String × α)) (k' k : String) :
    getA (delA l k') k = if k = k' then none else getA l k := by
  induction l with
  | nil => simp only [delA, List.filter_nil, getA]; split <;> rfl
  | cons p rest ih =>
    simp only [delA, List.filter_cons] at ih ⊢
    by_cases hp : p.1 = k' <;> by_cases hk : k = k' <;> by_cases hpk : p.1 = k <;>
      simp_all [getA]

lemma getA_foldl_delA_none {α : Type} (f : String → String) (key : String) :
    ∀ (rm : List String) (b : List (String × α)), getA b key = none →
      getA (rm.foldl (fun bs i => delA bs (f i)) b) key = none := by
  intro rm
  induction rm with
  | nil => intro b h; simpa using h
  | cons r rs ih =>
    intro b h
    simp only [List.foldl_cons]
    apply ih
    rw [getA_delA]
    by_cases hk : key = f r <;> simp [hk, h]

lemma getA_foldl_delA_mem {α : Type} (f : String → String) (id : String) :
    ∀ (rm : List String) (b : List (String × α)), id ∈ rm →
      getA (rm.foldl (fun bs i => delA bs (f i)) b) (f id) = none := by
  intro rm
  induction rm with
  | nil => intro b h; simp at h
  | cons r rs ih =>
    intro b h
    simp only [List.foldl_cons]
    rcases List.mem_cons.mp h with h | h
    · subst h
      apply getA_foldl_delA_none
      rw [getA_delA]
      simp
    · exact ih _ h

lemma getA_foldl_delA_not_mem {α : Type} (f : String → String) (key : String) :
    ∀ (rm : List String) (b : List (String × α)), (∀ i ∈ rm, f i ≠ key) →
      getA (rm.foldl (fun bs i => delA bs (f i)) b) key = getA b key := by
  intro rm
  induction rm with
  | nil => intro b _; rfl
  | cons r rs ih =>
    intro b h
    simp only [List.foldl_cons]
    rw [ih _ (fun i hi => h i (List.mem_cons_of_mem _ hi))]
    rw [getA_delA]
    rw [if_neg (fun hk => h r (List.mem_cons_self _ _) hk.symm)]

lemma append_left_cancel_str (p s1 s2 : String) (h : p ++ s1 = p ++ s2) : s1 = s2 := by
  cases s1 with
  | mk d1 =>
    cases s2 with
    | mk d2 =>
      cases p with
      | mk dp =>
        have hd : dp ++ d1 = dp ++ d2 := by
          have := congrArg String.data h
          simpa [String.data] using this
        simpa using congrArg String.mk (List.append_cancel_left hd)

lemma notifKey_ne (a b : String) (h : a ≠ b) : notifKey a ≠ notifKey b :=
  fun hc => h (append_left_cancel_str _ _ _ hc)

/-! ## Claim theorems for the in-app store -/

/-- C2 (confirmed): after any `storeNotification`, the recipient's mailbox
list holds at most 100 ids, its head (most recent) is the new notification's
id, and every id evicted past position 100 no longer resolves to a stored
body. -/
theorem storeNotification_cap_and_evict (s : InAppStore) (n : InAppNotification)
    (ttl : Option Nat) :
    (mailboxIds (storeNotification s n ttl).1 n.to).length ≤ 100 ∧
    (mailboxIds (storeNotification s n ttl).1 n.to).head? = some n.id ∧
    ∀ id ∈ (n.id :: mailboxIds s n.to).drop 100,
      bodyEntry (storeNotification s n ttl).1 id = none := by
  have hbox : mailboxIds (storeNotification s n ttl).1 n.to =
      (if (n.id :: mailboxIds s n.to).length > 100
        then (n.id :: mailboxIds s n.to).take 100
        else (n.id :: mailboxIds s n.to)) := by
    simp only [storeNotification, mailboxIds]
    rw [getA_setA_self]
    rfl
  have hbody : ∀ id, bodyEntry (storeNotification s n ttl).1 id =
      getA ((if (n.id :: mailboxIds s n.to).length > 100
          then (n.id :: mailboxIds s n.to).drop 100 else []).foldl
        (fun bs i => delA bs (notifKey i))
        (setA s.bodies (notifKey n.id) (n, some (jsOrDefault ttl 86400))))
        (notifKey id) := by
    intro id
    rfl
  refine ⟨?_, ?_, ?_⟩
  · rw [hbox]
    by_cases h : (n.id :: mailboxIds s n.to).length > 100
    · rw [if_pos h, List.length_take]
      omega
    · rw [if_neg h]
      omega
  · rw [hbox]
    by_cases h : (n.id :: mailboxIds s n.to).length > 100
    · rw [if_pos h, show (100 : Nat) = 99 + 1 from rfl, List.take_succ_cons]
      rfl
    · rw [if_neg h]
      rfl
  · intro id hid
    rw [hbody id]
    by_cases h : (n.id :: mailboxIds s n.to).length > 100
    · rw [if_pos h]
      exact getA_foldl_delA_mem notifKey id _ _ hid
    · exfalso
      rw [List.drop_eq_nil_of_le (by omega)] at hid
      simp at hid

/-- Witness for C2: storing a 101st notification (id `"100"`) for recipient
`"u"` whose mailbox already holds ids `"0"`..`"99"` keeps the list at 100
entries, puts `"100"` in front, and deletes the stored body of the evicted
oldest id `"99"`. -/
theorem storeNotification_cap_and_evict_inst :
    (mailboxIds (storeNotification exStore100 (exNotif 100) none).1 (exNotif 100).to).length ≤ 100 ∧
    (mailboxIds (storeNotification exStore100 (exNotif 100) none).1 (exNotif 100).to).head? =
      some (exNotif 100).id ∧
    bodyEntry (storeNotification exStore100 (exNotif 100) none).1 "99" = none := by
  have h := storeNotification_cap_and_evict exStore100 (exNotif 100) none
  exact ⟨h.1, h.2.1, h.2.2 "99" (by decide)⟩

/-- C4 (confirmed): `deliverNotification` returns `true` exactly when the
recipient's room has at least one socket; in that case it emits the
notification to the recipient's room, an emission that reaches every one of
the recipient's sessions; with no session it returns `false` and emits
nothing. -/
theorem deliverNotification_online_iff (reg : String → List String)
    (n : InAppNotification) :
    ((deliverNotification reg n).1 = true ↔ reg ("user:" ++ n.to) ≠ []) ∧
    ((deliverNotification reg n).1 = true →
      (deliverNotification reg n).2 = [IAEvent.notif ("user:" ++ n.to) n] ∧
      ∀ sid ∈ reg ("user:" ++ n.to),
        targetsSocket reg (IAEvent.notif ("user:" ++ n.to) n) sid) ∧
    ((deliverNotification reg n).1 = false → (deliverNotification reg n).2 = []) := by
  refine ⟨?_, ?_, ?_⟩
  · cases hreg : reg ("user:" ++ n.to) with
    | nil => simp [deliverNotification, hreg]
    | cons a l => simp [deliverNotification, hreg]
  · intro hd
    cases hreg : reg ("user:" ++ n.to) with
    | nil => simp [deliverNotification, hreg] at hd
    | cons a l =>
      refine ⟨by simp [deliverNotification, hreg], ?_⟩
      intro sid hsid
      show sid ∈ reg ("user:" ++ n.to)
      rw [hreg]
      exact hsid
  · intro hd
    cases hreg : reg ("user:" ++ n.to) with
    | nil => simp [deliverNotification, hreg]
    | cons a l => simp [deliverNotification, hreg] at hd

/-- Witness for C4: a recipient `"u"` with two live sessions gets the
notification delivered (`true`) through a room emission reaching both, while
with the same registry a recipient `"v"` with no session is reported offline. -/
theorem deliverNotification_online_iff_inst :
    (((deliverNotification
        (fun room => if room = "user:u" then ["s1", "s2"] else []) (exNotif 0)).1 = true ↔
      (fun room => if room = "user:u" then ["s1", "s2"] else []) ("user:" ++ (exNotif 0).to) ≠ []) ∧
    (((deliverNotification
        (fun room => if room = "user:u" then ["s1", "s2"] else []) (exNotif 0)).1 = true →
      (deliverNotification
        (fun room => if room = "user:u" then ["s1", "s2"] else []) (exNotif 0)).2 =
        [IAEvent.notif ("user:" ++ (exNotif 0).to) (exNotif 0)] ∧
      ∀ sid ∈ (fun room => if room = "user:u" then ["s1", "s2"] else [])
          ("user:" ++ (exNotif 0).to),
        targetsSocket (fun room => if room = "user:u" then ["s1", "s2"] else [])
          (IAEvent.notif ("user:" ++ (exNotif 0).to) (exNotif 0)) sid) ∧
    ((deliverNotification
        (fun room => if room = "user:u" then ["s1", "s2"] else []) (exNotif 0)).1 = false →
      (deliverNotification
        (fun room => if room = "user:u" then ["s1", "s2"] else []) (exNotif 0)).2 = []))) :=
  deliverNotification_online_iff (fun room => if room = "user:u" then ["s1", "s2"] else [])
    (exNotif 0)

/-- C10 (confirmed): when the stored notification's recipient differs from
`userId`, both `markNotificationAsRead` and `deleteNotification` return the
store completely unchanged and emit no event — a user cannot mutate another
user's notifications. -/
theorem foreign_user_mutation_noop (s : InAppStore) (notificationId userId : String)
    (n : InAppNotification) (ttl : Option Nat)
    (hlook : bodyEntry s notificationId = some (n, ttl)) (hne : n.to ≠ userId) :
    markNotificationAsRead s notificationId userId = (s, []) ∧
    deleteNotification s notificationId userId = (s, []) := by
  unfold markNotificationAsRead deleteNotification
  rw [hlook]
  simp [hne]

/-- Witness for C10: a store holding a single notification addressed to `"u"`
is untouched, with no event emitted, when `"bob"` tries to mark it read or
delete it. -/
theorem foreign_user_mutation_noop_inst :
    markNotificationAsRead
      { bodies := [(notifKey "1", (exNotif 1, some 60))], boxes := [] } "1" "bob" =
      ({ bodies := [(notifKey "1", (exNotif 1, some 60))], boxes := [] }, []) ∧
    deleteNotification
      { bodies := [(notifKey "1", (exNotif 1, some 60))], boxes := [] } "1" "bob" =
      ({ bodies := [(notifKey "1", (exNotif 1, some 60))], boxes := [] }, []) :=
  foreign_user_mutation_noop
    { bodies := [(notifKey "1", (exNotif 1, some 60))], boxes := [] } "1" "bob"
    (exNotif 1) (some 60) (by decide) (by decide)

/-- Storing a notification whose id is not already in the recipient's mailbox
leaves its body retrievable with the effective TTL `ttl || 86400` (the
eviction loop only deletes ids that were already in the mailbox). -/
lemma bodyEntry_storeNotification_fresh (s : InAppStore) (n : InAppNotification)
    (ttl : Option Nat) (hfresh : n.id ∉ mailboxIds s n.to) :
    bodyEntry (storeNotification s n ttl).1 n.id =
      some (n, some (jsOrDefault ttl 86400)) := by
  have hcond : ∀ i ∈ (if (n.id :: mailboxIds s n.to).length > 100
      then (n.id :: mailboxIds s n.to).drop 100 else []),
      notifKey i ≠ notifKey n.id := by
    intro i hi
    apply notifKey_ne
    intro he
    subst he
    by_cases h : (n.id :: mailboxIds s n.to).length > 100
    · rw [if_pos h, show (100 : Nat) = 99 + 1 from rfl, List.drop_succ_cons] at hi
      exact hfresh (List.mem_of_mem_drop hi)
    · rw [if_neg h] at hi
      simp at hi
  have hbody : bodyEntry (storeNotification s n ttl).1 n.id =
      getA ((if (n.id :: mailboxIds s n.to).length > 100
          then (n.id :: mailboxIds s n.to).drop 100 else []).foldl
        (fun bs i => delA bs (notifKey i))
        (setA s.bodies (notifKey n.id) (n, some (jsOrDefault ttl 86400))))
        (notifKey n.id) := rfl
  rw [hbody, getA_foldl_delA_not_mem (notifKey) (notifKey n.id) _ _ hcond,
    getA_setA_self]

/-- Counterexample for C5 as stated: a persistent notification sent with
`ttl = 0` to an offline recipient is stored, but its body's TTL is 86400
(JavaScript `ttl || 86400` treats the given `0` as absent), not the given
`options.ttl = 0`. -/
theorem sendNotification_ttl_zero_cex :
    (sendNotification emptyReg emptyStore exOptions0 "n1" "t0").stored = true ∧
    exOptions0.ttl = some 0 ∧
    (bodyEntry (sendNotification emptyReg emptyStore exOptions0 "n1" "t0").store "n1").map
      (fun p => p.2) = some (some 86400) ∧
    some (some (86400 : Nat)) ≠ some (some (0 : Nat)) := by
  refine ⟨by decide, by decide, by decide, by decide⟩

/-- C5 (corrected): `sendNotification` attempts live delivery first
(`delivered` reflects the presence of sessions), stores the notification
exactly when `options.persistent` is set or delivery failed, and the stored
body's TTL is `options.ttl` when given and nonzero, 86400 seconds otherwise
(a given TTL of `0` falls back to the default).  `freshId ∉ mailbox` reflects
that `generateNotificationId` produces fresh ids. -/
theorem sendNotification_persistence_ttl (reg : String → List String)
    (s : InAppStore) (options : NotificationOptions) (freshId timestamp : String)
    (hfresh : freshId ∉ mailboxIds s options.to) :
    ((sendNotification reg s options freshId timestamp).delivered = true ↔
      reg ("user:" ++ options.to) ≠ []) ∧
    ((sendNotification reg s options freshId timestamp).stored = true ↔
      (options.persistent.getD false = true ∨
        (sendNotification reg s options freshId timestamp).delivered = false)) ∧
    ((sendNotification reg s options freshId timestamp).stored = true →
      (bodyEntry (sendNotification reg s options freshId timestamp).store freshId).map
        (fun p => p.2) = some (some (jsOrDefault options.ttl 86400))) ∧
    (∀ t, options.ttl = some t → 0 < t → jsOrDefault options.ttl 86400 = t) ∧
    ((options.ttl = none ∨ options.ttl = some 0) → jsOrDefault options.ttl 86400 = 86400) := by
  have hstores := bodyEntry_storeNotification_fresh s
    { id := freshId, «to» := options.to, title := options.title,
      message := options.message, ntype := options.ntype.getD "info",
      data := options.data, timestamp := timestamp, read := false } options.ttl hfresh
  refine ⟨?_, ?_, ?_, ?_, ?_⟩
  · cases hreg : reg ("user:" ++ options.to) with
    | nil =>
      by_cases hp : options.persistent.getD false <;>
        simp [sendNotification, deliverNotification, hreg, hp]
    | cons a l =>
      by_cases hp : options.persistent.getD false <;>
        simp [sendNotification, deliverNotification, hreg, hp]
  · cases hreg : reg ("user:" ++ options.to) with
    | nil =>
      by_cases hp : options.persistent.getD false <;>
        simp [sendNotification, deliverNotification, storeNotification, hreg, hp]
    | cons a l =>
      by_cases hp : options.persistent.getD false <;>
        simp [sendNotification, deliverNotification, storeNotification, hreg, hp]
  · intro hstored
    cases hreg : reg ("user:" ++ options.to) with
    | nil =>
      simp only [sendNotification, deliverNotification, hreg, List.length_nil]
      simp only [sendNotification, deliverNotification, hreg] at hstores
      simp [hstores]
    | cons a l =>
      by_cases hp : options.persistent.getD false
      · simp only [sendNotification, deliverNotification, hreg, hp]
        simp [hstores]
      · exfalso
        simp [sendNotification, deliverNotification, hreg, hp] at hstored
  · intro t ht hpos
    simp [jsOrDefault, ht]
    omega
  · rintro (h | h) <;> simp [jsOrDefault, h]

/-- Witness for C5 (amended): a persistent notification with `ttl = 7` sent to
an offline recipient over an empty store is not delivered, is stored, and its
body carries TTL `7`. -/
theorem sendNotification_persistence_ttl_inst :
    (((sendNotification emptyReg emptyStore exOptions7 "n1" "t0").delivered = true ↔
      emptyReg ("user:" ++ exOptions7.to) ≠ []) ∧
    (((sendNotification emptyReg emptyStore exOptions7 "n1" "t0").stored = true ↔
      (exOptions7.persistent.getD false = true ∨
        (sendNotification emptyReg emptyStore exOptions7 "n1" "t0").delivered = false)) ∧
    (((sendNotification emptyReg emptyStore exOptions7 "n1" "t0").stored = true →
      (bodyEntry (sendNotification emptyReg emptyStore exOptions7 "n1" "t0").store "n1").map
        (fun p => p.2) = some (some (jsOrDefault exOptions7.ttl 86400))) ∧
    ((∀ t, exOptions7.ttl = some t → 0 < t → jsOrDefault exOptions7.ttl 86400 = t) ∧
    ((exOptions7.ttl = none ∨ exOptions7.ttl = some 0) →
      jsOrDefault exOptions7.ttl 86400 = 86400))))) :=
  sendNotification_persistence_ttl emptyReg emptyStore exOptions7 "n1" "t0" (by decide)

/-- Counterexample for C6 as stated: in a mailbox of 51 unread entries for
recipient `"u"`, the oldest entry (id `"50"`, body `exNotif 50`) is present
and unread, yet the join-time flush emits only the unread entries among the 50
most recent ids (`getUserNotifications` is called with its default
`limit = 50`), so this unread mailbox entry is missing from the single bulk
push. -/
theorem pendingFlush_limit_cex :
    "50" ∈ mailboxIds exStore51 "u" ∧
    bodyEntry exStore51 "50" = some (exNotif 50, some 86400) ∧
    (exNotif 50).read = false ∧
    (sendPendingNotifications exStore51 "u").1 =
      [IAEvent.pending ("user:" ++ "u") (getUserNotifications exStore51 "u" false 50)] ∧
    exNotif 50 ∉ getUserNotifications exStore51 "u" false 50 := by
  refine ⟨by decide, by decide, by decide, by decide, by decide⟩

/-- C6 (corrected): on session join the store flushes, as a single
`pending_notifications` bulk push to the user's room, the unread entries among
the recipient's 50 most recent mailbox ids (the flush reads
`getUserNotifications(userId, false)` whose limit defaults to 50, not the
whole 100-capacity mailbox); every flushed entry is unread, and the store —
hence every mailbox entry and its read state — is unchanged by the flush. -/
theorem pendingFlush_spec (reg : String → List String) (s : InAppStore)
    (socketId userId : String) :
    ((handleJoin reg s socketId userId).2.2 = s) ∧
    (∀ n ∈ getUserNotifications s userId false 50, n.read = false) ∧
    ((getUserNotifications s userId false 50).length > 0 →
      (handleJoin reg s socketId userId).2.1 =
        [IAEvent.pending ("user:" ++ userId) (getUserNotifications s userId false 50)]) ∧
    ((getUserNotifications s userId false 50).length = 0 →
      (handleJoin reg s socketId userId).2.1 = []) := by
  refine ⟨rfl, ?_, ?_, ?_⟩
  · intro n hn
    simp only [getUserNotifications, List.mem_filterMap] at hn
    obtain ⟨id, hid, hmap⟩ := hn
    cases hb : bodyEntry s id with
    | none => rw [hb] at hmap; simp at hmap
    | some p =>
      rw [hb] at hmap
      by_cases hr : p.1.read = true
      · simp [hr] at hmap
      · rw [Bool.not_eq_true] at hr
        simp [hr] at hmap
        rw [← hmap]
        exact hr
  · intro h
    simp only [handleJoin, sendPendingNotifications]
    rw [if_pos h]
  · intro h
    simp only [handleJoin, sendPendingNotifications]
    rw [if_neg (by omega)]

/-- Witness for C6 (amended): joining as `"u"` over the 51-entry store leaves
the store unchanged and flushes the bulk push of
`getUserNotifications exStore51 "u" false 50`. -/
theorem pendingFlush_spec_inst :
    (handleJoin emptyReg exStore51 "s1" "u").2.2 = exStore51 ∧
    (handleJoin emptyReg exStore51 "s1" "u").2.1 =
      [IAEvent.pending ("user:" ++ "u") (getUserNotifications exStore51 "u" false 50)] :=
  ⟨(pendingFlush_spec emptyReg exStore51 "s1" "u").1,
   (pendingFlush_spec emptyReg exStore51 "s1" "u").2.2.1 (by decide)⟩

/-! ## Claim theorems for validation and template substitution -/

/-- C8 (confirmed): a notification request whose recipient fails the required
format of its channel (`EMAIL` recipient failing the email pattern, `SMS`
recipient failing the phone pattern) is answered `400 VALIDATION_ERROR` by
`handleValidationErrors` before the route handler runs, so no job is enqueued
(`enqueued = false`) — and an unenqueued request is never retried. -/
theorem notificationRoute_rejects_bad_recipient (req : NotifRequest)
    (sendAtValid : Bool) (hch : req.channel = "EMAIL" ∨ req.channel = "SMS")
    (hbad : validateRecipientFormat req.channel req.to = false) :
    notificationRoute req sendAtValid =
      ({ status := 400, code := "VALIDATION_ERROR" }, false) := by
  have hto : toFieldErrors req ≠ [] := by
    rcases hch with h | h <;>
      · unfold validateRecipientFormat at hbad
        unfold toFieldErrors
        rw [h] at hbad ⊢
        simp at hbad
        by_cases he : req.to = "" <;> simp [he, hbad]
  have hne : (notificationValidationErrors req sendAtValid).isEmpty = false := by
    unfold notificationValidationErrors
    cases hcase : toFieldErrors req with
    | nil => exact absurd hcase hto
    | cons e rest => simp [hcase]
  unfold notificationRoute handleValidationErrors
  rw [hne]
  rfl

/-- Witness for C8: the request `to = "bob"`, `channel = "EMAIL"` (no `@` in
the recipient) is rejected with `400 VALIDATION_ERROR` and not enqueued. -/
theorem notificationRoute_rejects_bad_recipient_inst :
    notificationRoute
      { «to» := "bob", channel := "EMAIL", subject := none, message := "hi",
        templateId := none, sendAt := none } true =
      ({ status := 400, code := "VALIDATION_ERROR" }, false) :=
  notificationRoute_rejects_bad_recipient
    { «to» := "bob", channel := "EMAIL", subject := none, message := "hi",
      templateId := none, sendAt := none } true (Or.inl rfl) (by decide)

/-- The email channel's substitution loop computes, on the body component, the
same fold as the SMS channel's. -/
lemma email_sms_subst : ∀ (vars : List (String × String)) (subject template : String),
    (emailProcessTemplate subject template vars).2 = smsProcessTemplate template vars := by
  intro vars
  induction vars with
  | nil => intro subject template; rfl
  | cons kv rest ih =>
    intro subject template
    simp only [emailProcessTemplate, smsProcessTemplate, List.foldl_cons] at *
    exact ih _ _

/-- The in-app channel's substitution loop computes, on the message component,
the same fold as the SMS channel's. -/
lemma inApp_sms_subst : ∀ (vars : List (String × String)) (template title : String),
    (inAppProcessTemplate template title vars).1 = smsProcessTemplate template vars := by
  intro vars
  induction vars with
  | nil => intro template title; rfl
  | cons kv rest ih =>
    intro template title
    simp only [inAppProcessTemplate, smsProcessTemplate, List.foldl_cons] at *
    exact ih _ _

/-- C9 (confirmed): the `\x7b\x7bkey\x7d\x7d` substitution applied by the in-app channel
agrees, for every template and variables map, with the substitution applied by
the SMS and email channels (each occurrence of `\x7b\x7bkey\x7d\x7d` replaced by the
stringified value, entries processed in insertion order); and
`sendTemplateNotification` applies it before delivery/storage: it is
`sendNotification` of the options carrying the substituted title and the
substituted message. -/
theorem templateSubstitution_channels_agree (template subject title : String)
    (vars : List (String × String)) :
    (emailProcessTemplate subject template vars).2 = smsProcessTemplate template vars ∧
    (inAppProcessTemplate template title vars).1 = smsProcessTemplate template vars ∧
    ∀ (reg : String → List String) (s : InAppStore) (recipient : String)
      (options : NotificationOptions) (freshId timestamp : String),
      sendTemplateNotification reg s recipient template vars options freshId timestamp =
        sendNotification reg s
          { options with
            «to» := recipient
            title := if (inAppProcessTemplate template (options.title.getD "") vars).2 = ""
              then options.title
              else some (inAppProcessTemplate template (options.title.getD "") vars).2
            message := smsProcessTemplate template vars } freshId timestamp := by
  refine ⟨email_sms_subst vars subject template, inApp_sms_subst vars template title, ?_⟩
  intro reg s recipient options freshId timestamp
  show sendNotification reg s
      { «to» := recipient
        title := if (inAppProcessTemplate template (options.title.getD "") vars).2 = ""
          then options.title
          else some (inAppProcessTemplate template (options.title.getD "") vars).2
        message := (inAppProcessTemplate template (options.title.getD "") vars).1
        ntype := options.ntype
        data := options.data
        persistent := options.persistent
        ttl := options.ttl } freshId timestamp = _
  rw [inApp_sms_subst]
